import Mathlib

/-!
Verification development for the flytekit typed-value marshalling core and the
node override model. The definitions below are a shallow embedding of
`flytekit/types/file/file.py`, `flytekit/types/pickle/pickle.py` and
`flytekit/core/node.py`: pure Python functions become Lean functions, the
stateful parts (FlyteFile lazy download, Node.with_overrides in-place mutation)
become explicit state passing, and storage / filesystem / libmagic
collaborators become an explicit context record of oracle functions.
I/O performed by the code is reified as a list of events so that claims about
"no upload" / "download at most once" are provable statements.
-/

/-- String-keyed free-form metadata map, as carried by literals and FlyteFile. -/
def SMap : Type := List (String × String)

deriving instance DecidableEq for SMap
deriving instance Repr for SMap
deriving instance DecidableEq for Except

/-- Error kinds raised by the embedded code, named after the Python exception
classes used in the source. -/
inductive PyErr : Type
  | typeErr
  | valueErr
  | typeTransformerFailedErr
  | flyteAssertionErr
  | assertionErr
  | keyErr
  deriving DecidableEq, Repr

/-- Storage I/O events: a `get` is `file_access.get_data(remote, local)`; a
`put` is `async_put_data(src, dst, headers)` when `dst` is given, and
`async_put_raw_data(src, headers)` when it is `none`. The destination of
`put_data` can be the value `True` because `remote_path` admits booleans in the
source, hence the `Sum Bool String`. -/
inductive IOEvent : Type
  | get (remotePath localPath : String)
  | put (src : String) (dst : Option (Sum Bool String)) (hdrs : List (String × String))
  deriving DecidableEq, Repr

/-- Blob dimensionality (`BlobType.BlobDimensionality`). -/
inductive BlobDim : Type
  | single
  | multipart
  deriving DecidableEq, Repr

/-- `BlobType(format=…, dimensionality=…)`. -/
structure BlobTypeM : Type where
  format : String
  dim : BlobDim
  deriving DecidableEq, Repr

/-- `Blob(metadata=BlobMetadata(type=btype), uri=…)`; the wrapper
`BlobMetadata` carries only the type, so it is inlined as `btype`. -/
structure BlobM : Type where
  btype : BlobTypeM
  uri : String
  deriving DecidableEq, Repr

/-- The `{"path": …, "metadata": …}` mapping extracted from a msgpack binary
payload or a generic (struct) payload. A msgpack payload that decodes to
something else is outside the modelled domain. -/
structure FFDict : Type where
  path : Option String
  metadata : Option SMap
  deriving DecidableEq, Repr

/-- Scalar variants of a literal relevant to the file transformer:
blob, binary (tag plus decoded payload), and generic struct payload. -/
inductive ScalarM : Type
  | blob (b : BlobM)
  | binary (tag : String) (payload : FFDict)
  | generic (payload : FFDict)
  deriving DecidableEq, Repr

/-- `Literal(scalar=…, metadata=…)`. -/
structure LiteralM : Type where
  scalar : Option ScalarM
  metadata : Option SMap
  deriving DecidableEq, Repr

/-- `LiteralType`, restricted to the blob variant; every non-blob shape is
represented by `blob = none` (the file and pickle transformers look only at
`literal_type.blob`). -/
structure LiteralTypeM : Type where
  blob : Option BlobTypeM
  deriving DecidableEq, Repr

/-- The declared Python type the transformer receives: either the untyped
`os.PathLike` capability, or the (format-parameterized) FlyteFile subtype,
identified by its `extension()` string. -/
inductive PyType : Type
  | pathLike
  | flyteFile (ext : String)
  deriving DecidableEq, Repr

/-- `FlyteFilePathTransformer.get_format`: empty for `os.PathLike`, else the
class extension. -/
def getFormat : PyType → String
  | .pathLike => ""
  | .flyteFile e => e

/-- The lazy materializer held by a FlyteFile: the `noop` function, or the
`functools`-bound `file_access.get_data(remote_path, local_path)`. -/
inductive Downloader : Type
  | noop
  | fetch (remotePath localPath : String)
  deriving DecidableEq, Repr

/-- Running a downloader produces its I/O events. -/
def Downloader.run : Downloader → List IOEvent
  | .noop => []
  | .fetch r l => [.get r l]

/-- The `remote_path` attribute: `None`, a bool, or a string destination. -/
inductive RP : Type
  | none
  | bool (b : Bool)
  | str (s : String)
  deriving DecidableEq, Repr

/-- Python truthiness coercion `remote_path or None` used in
`async_to_literal`: `False` and the empty string collapse to `None`. -/
def RP.orNone : RP → Option (Sum Bool String)
  | .none => Option.none
  | .bool b => if b then some (Sum.inl true) else Option.none
  | .str s => if s = "" then Option.none else some (Sum.inr s)

/-- The collaborator context: storage remoteness predicate, scratch-path
allocator, local filesystem, execution mode, and the optional libmagic
content-sniffing capability together with the environment `mimetypes` table.
All are oracles fixed per scenario. -/
structure Ctx : Type where
  isRemote : String → Bool
  randomLocalPath : String → String
  isFile : String → Bool
  isLocalExecution : Bool
  magicAvailable : Bool
  sniff : String → String
  mimetypesTypesMap : List (String × String)
  putDataRes : String → Sum Bool String → String
  putRawRes : String → String

/-- Host-side FlyteFile value. `ext` is the class-level `extension()` of the
instance's (possibly format-specialized) class; `localPath` is the private
`_local_path`; the remaining fields mirror the attributes set in `__init__`. -/
structure FlyteFile : Type where
  ext : String
  path : String
  metadata : Option SMap
  downloader : Downloader
  downloaded : Bool
  remotePath : RP
  remoteSource : Option String
  localPath : String
  deriving DecidableEq, Repr

/-- `FlyteFile.__init__`: records the fields, then, when the path is remote,
sets `remote_source`, allocates a scratch `_local_path` and rebinds the
downloader to `get_data(remote, scratch)`. The second component is the list of
I/O events performed during construction: `__init__` performs none (it only
builds the deferred closure), which is the content of the laziness contract at
construction time. -/
def FlyteFile.init (ctx : Ctx) (ext : String) (path : String) (dl : Downloader)
    (rp : RP) (md : Option SMap) : FlyteFile × List IOEvent :=
  let base : FlyteFile :=
    { ext := ext, path := path, metadata := md, downloader := dl,
      downloaded := false, remotePath := rp, remoteSource := Option.none,
      localPath := path }
  if ctx.isRemote path then
    ({ base with
        remoteSource := some path,
        localPath := ctx.randomLocalPath path,
        downloader := .fetch path (ctx.randomLocalPath path) }, [])
  else
    (base, [])

/-- `FlyteFile.__fspath__`: on the first call runs the downloader once and
sets the `downloaded` flag; afterwards returns the cached local path. Result:
(updated value, returned path, number of downloader invocations, I/O events).
`download()` and `_download()` are aliases of this. -/
def FlyteFile.fspath (f : FlyteFile) : FlyteFile × String × Nat × List IOEvent :=
  if f.downloaded then (f, f.localPath, 0, [])
  else ({ f with downloaded := true }, f.localPath, 1, f.downloader.run)

/-- Accumulated result of several successive `__fspath__` calls on one
instance. -/
structure FspathRes : Type where
  file : FlyteFile
  paths : List String
  runs : Nat
  events : List IOEvent
  deriving DecidableEq, Repr

/-- Iterate `__fspath__` `n` times on the same instance, collecting the
returned paths, downloader invocation count and I/O events. -/
def fspathN : Nat → FlyteFile → FspathRes
  | 0, f => ⟨f, [], 0, []⟩
  | n + 1, f =>
    let s := f.fspath
    let r := fspathN n s.1
    ⟨r.file, s.2.1 :: r.paths, s.2.2.1 + r.runs, s.2.2.2 ++ r.events⟩

/-- Association lookup used for the mime tables. -/
def alookup {β : Type} (e : String) : List (String × β) → Option β
  | [] => Option.none
  | (k, v) :: rest => if k = e then some v else alookup e rest

/-- An expected mime entry: `get_mime_type_from_extension` returns either one
mime string or (for `jsonl`) a list of acceptable ones. -/
inductive MimeExp : Type
  | one (s : String)
  | many (l : List String)
  deriving DecidableEq, Repr

/-- The hardcoded part of the `extension_to_mime_type` dictionary. -/
def baseMimeMap : List (String × MimeExp) :=
  [("hdf5", .one "text/plain"),
   ("joblib", .one "application/octet-stream"),
   ("python_pickle", .one "application/octet-stream"),
   ("ipynb", .one "application/json"),
   ("onnx", .one "application/json"),
   ("tfrecord", .one "application/octet-stream"),
   ("jsonl", .many ["application/json", "application/x-ndjson"])]

/-- `get_mime_type_from_extension`: hardcoded dictionary overwritten by the
environment's `mimetypes.types_map` entries (the source loops over the system
table after the dict literal, so system entries win on collisions); an unknown
extension is a KeyError. `ctx.mimetypesTypesMap` holds the system table with
keys already split past the leading dot. -/
def getMimeTypeFromExtension (ctx : Ctx) (e : String) : Option MimeExp :=
  match alookup e ctx.mimetypesTypesMap with
  | some m => some (.one m)
  | Option.none => alookup e baseMimeMap

/-- Prefix test on character lists (executable helper for containment). -/
def leadsChars : List Char → List Char → Bool
  | [], _ => true
  | _ :: _, [] => false
  | a :: as, b :: bs => (a = b) && leadsChars as bs

/-- Containment of `needle` inside `hay` as contiguous characters, the
semantics of Python's `sub in str`. -/
def containsChars (hay needle : List Char) : Bool :=
  match hay with
  | [] => needle.isEmpty
  | _ :: rest => leadsChars needle hay || containsChars rest needle

/-- Python `real_type not in expected_type` negated: substring containment
when the expected entry is a single string, list membership when it is a
list. -/
def mimeMatches (real : String) : MimeExp → Bool
  | .one s => containsChars s.data real.data
  | .many l => l.contains real

/-- `validate_file_type`: skipped for the empty format, when libmagic is not
importable, and for remote source paths; otherwise sniffs the real mime type
and raises ValueError on a mismatch (KeyError when the extension is unknown to
the mime table). -/
def validateFileType (ctx : Ctx) (pt : PyType) (src : String) : Except PyErr Unit :=
  if getFormat pt = "" then .ok ()
  else if ctx.magicAvailable = false then .ok ()
  else if ctx.isRemote src = true then .ok ()
  else
    match getMimeTypeFromExtension ctx (getFormat pt) with
    | Option.none => .error .keyErr
    | some exp => if mimeMatches (ctx.sniff src) exp then .ok () else .error .valueErr

/-- The reserved opaque-value (pickle) format sentinel,
`FlytePickleTransformer.PYTHON_PICKLE_FORMAT`. -/
def pythonPickleFormat : String := "PythonPickle"

/-- Python `str.strip()` on a character list: whitespace removed from both
ends. -/
def stripChars (l : List Char) : List Char :=
  ((l.dropWhile Char.isWhitespace).reverse.dropWhile Char.isWhitespace).reverse

/-- The string processing of `FlyteFile.__class_getitem__`: strip whitespace,
strip leading tildes, strip leading dots; the original empty string yields the
base class (extension `""`). -/
def FlyteFile.classGetItemExt (item : String) : String :=
  if item = "" then ""
  else String.mk (((stripChars item.data).dropWhile (fun c => c = '~')).dropWhile (fun c => c = '.'))

/-- `FlyteFile.__class_getitem__` as a `PyType`. -/
def FlyteFile.classGetItem (item : String) : PyType :=
  .flyteFile (FlyteFile.classGetItemExt item)

/-- `FlyteFilePathTransformer.guess_python_type`: blob present, SINGLE
dimensionality, format distinct from the pickle sentinel; else ValueError. -/
def guessPythonTypeFile (lt : LiteralTypeM) : Except PyErr PyType :=
  match lt.blob with
  | some b =>
    match b.dim with
    | .single =>
      if b.format = pythonPickleFormat then .error .valueErr
      else .ok (FlyteFile.classGetItem b.format)
    | .multipart => .error .valueErr
  | Option.none => .error .valueErr

/-- `FlytePickleTransformer.guess_python_type`: blob present, SINGLE
dimensionality, format equal to the pickle sentinel (returns the `FlytePickle`
class, modelled as `Unit`); else ValueError. -/
def guessPythonTypePickle (lt : LiteralTypeM) : Except PyErr Unit :=
  match lt.blob with
  | some b =>
    match b.dim with
    | .single =>
      if b.format = pythonPickleFormat then .ok () else .error .valueErr
    | .multipart => .error .valueErr
  | Option.none => .error .valueErr

/-- Success test for `Except`. -/
def isOkE {ε α : Type} : Except ε α → Bool
  | .ok _ => true
  | .error _ => false

/-- The condition under which the file transformer's reverse lookup succeeds. -/
def fileClaims (lt : LiteralTypeM) : Bool :=
  match lt.blob with
  | some b => (b.dim == BlobDim.single) && !(b.format == pythonPickleFormat)
  | Option.none => false

/-- The condition under which the pickle transformer's reverse lookup
succeeds. -/
def pickleClaims (lt : LiteralTypeM) : Bool :=
  match lt.blob with
  | some b => (b.dim == BlobDim.single) && (b.format == pythonPickleFormat)
  | Option.none => false

/-- Hex digit value for percent-decoding. -/
def hexVal (c : Char) : Option Nat :=
  if '0' ≤ c ∧ c ≤ '9' then some (c.toNat - 48)
  else if 'a' ≤ c ∧ c ≤ 'f' then some (c.toNat - 87)
  else if 'A' ≤ c ∧ c ≤ 'F' then some (c.toNat - 55)
  else Option.none

/-- Character-level percent-decoding, the `urllib.parse.unquote` applied to
the confirmed upload destination (ASCII escapes; multi-byte escapes are out of
the modelled alphabet). -/
def unquoteChars : List Char → List Char
  | [] => []
  | '%' :: a :: b :: rest =>
    match hexVal a, hexVal b with
    | some x, some y => Char.ofNat (16 * x + y) :: unquoteChars rest
    | _, _ => '%' :: unquoteChars (a :: b :: rest)
  | c :: rest => c :: unquoteChars rest
termination_by l => l.length
decreasing_by all_goals simp_arith

/-- `urllib.parse.unquote` on strings. -/
def unquote (s : String) : String := String.mk (unquoteChars s.data)

/-- `FlyteFilePathTransformer.get_additional_headers`: a `.gz` source gets a
gzip content-encoding header. -/
def getAdditionalHeaders (src : String) : List (String × String) :=
  if src.endsWith ".gz" then [("ContentEncoding", "gzip")] else []

/-- The Python value handed to `to_literal`: `None`, a FlyteFile, a `str`, or
a `pathlib.Path`. -/
inductive PyVal : Type
  | noneV
  | file (f : FlyteFile)
  | strv (s : String)
  | pathv (s : String)
  deriving DecidableEq, Repr

/-- Common tail of `async_to_literal`: upload (an explicit destination uses
`async_put_data`, otherwise `async_put_raw_data`, both with the content
headers, uri percent-decoded) or re-emit the source path as-is. -/
def toLiteralFinish (ctx : Ctx) (src : String) (shouldUpload : Bool)
    (rpv : Option (Sum Bool String)) (md : Option SMap) (fmt : String) :
    Except PyErr LiteralM × List IOEvent :=
  if shouldUpload then
    let hdrs := getAdditionalHeaders src
    match rpv with
    | some d =>
      (.ok ⟨some (.blob ⟨⟨fmt, .single⟩, unquote (ctx.putDataRes src d)⟩), md⟩,
       [.put src (some d) hdrs])
    | Option.none =>
      (.ok ⟨some (.blob ⟨⟨fmt, .single⟩, unquote (ctx.putRawRes src)⟩), md⟩,
       [.put src Option.none hdrs])
  else
    (.ok ⟨some (.blob ⟨⟨fmt, .single⟩, src⟩), md⟩, [])

/-- `FlyteFilePathTransformer.async_to_literal`. For a FlyteFile value:
content-type validation runs first on the value's path; a value carrying a
`remote_source` is re-emitted verbatim; otherwise the upload decision follows
the precedence in the source (`remote_path is False` / already-remote source
path, then the `os.PathLike` downgrade, then local execution with no explicit
destination). For `str` / `pathlib.Path` values the source's existence checks
and local-execution rule apply. The second component lists the storage `put`
calls performed. -/
def asyncToLiteral (ctx : Ctx) (pv : PyVal) (pt : PyType) :
    Except PyErr LiteralM × List IOEvent :=
  match pv with
  | .noneV => (.error .typeTransformerFailedErr, [])
  | .file f =>
    match validateFileType ctx pt f.path with
    | .error e => (.error e, [])
    | .ok _ =>
      match f.remoteSource with
      | some rs => (.ok ⟨some (.blob ⟨⟨getFormat pt, .single⟩, rs⟩), f.metadata⟩, [])
      | Option.none =>
        let su1 : Bool :=
          if f.remotePath = RP.bool false ∨ ctx.isRemote f.path = true then false else true
        let su2 : Bool := if pt = PyType.pathLike then false else su1
        let su3 : Bool :=
          if ctx.isLocalExecution = true ∧ f.remotePath = RP.none then false else su2
        toLiteralFinish ctx f.path su3 f.remotePath.orNone f.metadata (getFormat pt)
  | .strv s =>
    match pt with
    | .pathLike => toLiteralFinish ctx s false Option.none Option.none ""
    | .flyteFile e =>
      match validateFileType ctx pt s with
      | .error er => (.error er, [])
      | .ok _ =>
        if ctx.isRemote s then toLiteralFinish ctx s false Option.none Option.none e
        else if ctx.isFile s = false then (.error .typeTransformerFailedErr, [])
        else if ctx.isLocalExecution then toLiteralFinish ctx s false Option.none Option.none e
        else toLiteralFinish ctx s true Option.none Option.none e
  | .pathv s =>
    match pt with
    | .pathLike => toLiteralFinish ctx s false Option.none Option.none ""
    | .flyteFile e =>
      match validateFileType ctx pt s with
      | .error er => (.error er, [])
      | .ok _ =>
        if ctx.isRemote s then toLiteralFinish ctx s false Option.none Option.none e
        else if ctx.isFile s = false then (.error .valueErr, [])
        else toLiteralFinish ctx s true Option.none Option.none e

/-- The blob tail of `async_to_python_value` (shared with the binary and
generic entry points through `dict_to_flyte_file`, which always builds a blob
literal): dimensionality check, local-existence contract, then the three
return shapes of the source — bare FlyteFile for `os.PathLike`, direct wrap
for a local uri, and a lazily-downloading format-specialized instance with
`remote_source` recorded for a remote uri. -/
def toPythonValueBlob (ctx : Ctx) (lv : LiteralM) (expected : PyType) :
    Except PyErr FlyteFile :=
  match lv.scalar with
  | some (.blob b) =>
    if b.btype.dim ≠ BlobDim.single then .error .typeTransformerFailedErr
    else if ctx.isRemote b.uri = false ∧ ctx.isFile b.uri = false then .error .flyteAssertionErr
    else if expected = PyType.pathLike then
      .ok (FlyteFile.init ctx "" b.uri .noop .none lv.metadata).1
    else if ctx.isRemote b.uri = false then
      .ok (FlyteFile.init ctx (getFormat expected) b.uri .noop .none lv.metadata).1
    else
      let lp := ctx.randomLocalPath b.uri
      let ff := (FlyteFile.init ctx (FlyteFile.classGetItemExt (getFormat expected))
        lp (.fetch b.uri lp) .none lv.metadata).1
      .ok { ff with remoteSource := some b.uri }
  | _ => .error .typeTransformerFailedErr

/-- `dict_to_flyte_file`: a missing or null path is a ValueError; otherwise
the dict is rewrapped as an untyped SINGLE blob literal and converted. -/
def dictToFlyteFile (ctx : Ctx) (d : FFDict) (expected : PyType) :
    Except PyErr FlyteFile :=
  match d.path with
  | Option.none => .error .valueErr
  | some p => toPythonValueBlob ctx ⟨some (.blob ⟨⟨"", .single⟩, p⟩), d.metadata⟩ expected

/-- `async_to_python_value`: binary payloads with the msgpack tag and generic
struct payloads go through `dict_to_flyte_file`; an unrecognized binary tag is
an unsupported-format error; everything else is the blob path. -/
def asyncToPythonValue (ctx : Ctx) (lv : LiteralM) (expected : PyType) :
    Except PyErr FlyteFile :=
  match lv.scalar with
  | some (.binary tag d) =>
    if tag = "msgpack" then dictToFlyteFile ctx d expected
    else .error .typeTransformerFailedErr
  | some (.generic d) => dictToFlyteFile ctx d expected
  | _ => toPythonValueBlob ctx lv expected

/-- Well-formedness of a FlyteFile with respect to a context: whenever
`remote_source` is set, either it equals the value's own path (direct
construction from a remote path) or the value was produced by the transformer
(`remote_path` unset and the path a local scratch path). Every value produced
by `FlyteFile.init` or by `async_to_python_value` satisfies this. -/
def FFWellFormed (ctx : Ctx) (f : FlyteFile) : Prop :=
  ∀ s, f.remoteSource = some s →
    f.path = s ∨ (f.remotePath = RP.none ∧ ctx.isRemote f.path = false)

/-- A `timedelta`, in microseconds. -/
structure Duration : Type where
  usec : Int
  deriving DecidableEq, Repr

/-- `datetime.timedelta()`. -/
def Duration.zero : Duration := ⟨0⟩

/-- `datetime.timedelta(seconds=k)`. -/
def Duration.ofSeconds (k : Int) : Duration := ⟨k * 1000000⟩

/-- An optional override argument that may also be a deferred/unresolved
value (a Promise). -/
inductive PV (α : Type) : Type
  | none
  | some (a : α)
  | prom
  deriving DecidableEq, Repr

/-- The `timeout` argument of `with_overrides`: the class-level unset
sentinel, an explicit `None`, an int, a timedelta, or any other shape. -/
inductive TimeoutArg : Type
  | sentinel
  | clear
  | secs (k : Int)
  | dur (d : Duration)
  | other
  deriving DecidableEq, Repr

/-- A rich cache policy (`flytekit.core.cache.Cache`); `ignored_inputs` is
omitted because no value of it ever reaches the node metadata in
`_override_node_metadata` (every code path that builds or consumes it errors
before a write or discards it). -/
structure CacheObj : Type where
  version : Option String
  serialize : Bool
  deriving DecidableEq, Repr

/-- The `cache` argument payload: a bool or a rich cache policy. -/
inductive CacheArg : Type
  | b (v : Bool)
  | rich (c : CacheObj)
  deriving DecidableEq, Repr

/-- A resource amount that may be a promise (`Resources` field values flow
into `ResourceEntry.value`, where `assert_no_promises_in_resources` looks). -/
inductive RVal : Type
  | v (s : String)
  | prom
  deriving DecidableEq, Repr

/-- `flytekit.Resources`: cpu / mem / gpu / ephemeral storage amounts. -/
structure ResourcesR : Type where
  cpu : Option RVal
  mem : Option RVal
  gpu : Option RVal
  ephemeralStorage : Option RVal
  deriving DecidableEq, Repr

/-- `ResourceEntry` names. -/
inductive ResourceName : Type
  | cpu
  | memory
  | gpu
  | ephemeralStorage
  deriving DecidableEq, Repr

/-- `ResourceEntry(name, value)`. -/
structure ResourceEntry : Type where
  name : ResourceName
  value : RVal
  deriving DecidableEq, Repr

/-- `_convert_resource_overrides`: one entry per populated field, in the
source's cpu, mem, gpu, ephemeral-storage order; `None` gives no entries. -/
def convertResourceOverrides : Option ResourcesR → List ResourceEntry
  | Option.none => []
  | some r =>
    (match r.cpu with | some x => [⟨.cpu, x⟩] | Option.none => []) ++
    (match r.mem with | some x => [⟨.memory, x⟩] | Option.none => []) ++
    (match r.gpu with | some x => [⟨.gpu, x⟩] | Option.none => []) ++
    (match r.ephemeralStorage with | some x => [⟨.ephemeralStorage, x⟩] | Option.none => [])

/-- The task-model `Resources(requests=…, limits=…)`. -/
structure ResourcesModel : Type where
  requests : List ResourceEntry
  limits : List ResourceEntry
  deriving DecidableEq, Repr

/-- Modelled from the spec: `convert_resources_to_resource_model`
(flytekit/core/resources.py, not under src/) builds the requests and limits
entry lists of the resources model from the two `Resources` values; the
per-value conversion is `_convert_resource_overrides` from the source. -/
def convertResourcesToResourceModel (req lim : Option ResourcesR) : ResourcesModel :=
  ⟨convertResourceOverrides req, convertResourceOverrides lim⟩

/-- `assert_no_promises_in_resources`: an AssertionError as soon as any
request or limit entry value is a promise. -/
def assertNoPromisesInResources (rm : ResourcesModel) : Option PyErr :=
  if (rm.requests ++ rm.limits).any (fun en => en.value = RVal.prom) then some .assertionErr
  else Option.none

/-- Modelled from the spec: `ResourceSpec.from_multiple_resource`
(flytekit/core/resources.py, not under src/) derives a requests part and a
limits part from one combined `Resources`; the exact split is immaterial to
every claim (the mutual-exclusion error fires before this is called in all
claimed scenarios), modelled as using the same entries for both. -/
def fromMultipleResource (r : ResourcesR) : Option ResourcesR × Option ResourcesR :=
  (some r, some r)

/-- Node metadata (`_workflow_model.NodeMetadata`), the fields touched by
`_override_node_metadata`. -/
structure NodeMeta : Type where
  name : String
  timeout : Duration
  retries : Option Int
  interruptible : Option Bool
  cacheable : Option Bool
  cacheVersion : Option String
  cacheSerializable : Option Bool
  deriving DecidableEq, Repr

/-- A DAG node. `ref` is the object identity used by the `in` test of
`runs_before` (the source class defines no `__eq__`); `isMapTask` tells
whether the flyte entity is an `ArrayNodeMapTask`, in which case metadata
overrides target `subNodeMetadata` (`sub_node_metadata`); `taskCfgTag` stands
for the concrete type of `run_entity._task_config` and `taskCfgVal` for its
value; `extendedResources` holds the accelerator / shared-memory pair. -/
structure Node : Type where
  ref : Nat
  id : String
  isMapTask : Bool
  metadata : NodeMeta
  subNodeMetadata : NodeMeta
  upstream : List Nat
  aliases : Option (List (String × String))
  resources : Option ResourcesModel
  extendedResources : Option (Option String × Option String)
  containerImage : Option String
  podTemplate : Option String
  taskCfgTag : Nat
  taskCfgVal : Nat
  deriving DecidableEq, Repr

/-- The metadata object `_override_node_metadata` mutates: the sub-node
metadata for an `ArrayNodeMapTask`, the node's own metadata otherwise. -/
def targetMeta (n : Node) : NodeMeta :=
  if n.isMapTask then n.subNodeMetadata else n.metadata

/-- Write back the metadata object picked by `targetMeta`. -/
def setTargetMeta (n : Node) (m : NodeMeta) : Node :=
  if n.isMapTask then { n with subNodeMetadata := m } else { n with metadata := m }

/-- Modelled from the spec: `_dnsify` (flytekit/core/utils.py, not under
src/) converts a name to a DNS-label-safe string; its algorithm is immaterial
to every claim (only whether the id is written at all matters), modelled as
the identity. -/
def dnsify (s : String) : String := s

/-- `runs_before` / `>>`: appends the left node to the right node's upstream
list when absent; returns both nodes' states (the left one is returned
untouched — only the other node is mutated). -/
def runsBefore (a b : Node) : Node × Node :=
  if a.ref ∈ b.upstream then (a, b)
  else (a, { b with upstream := b.upstream ++ [a.ref] })

/-- Iterated `runs_before` on the same pair. -/
def runsBeforeN : Nat → Node → Node → Node × Node
  | 0, a, b => (a, b)
  | n + 1, a, b =>
    let p := runsBefore a b
    runsBeforeN n p.1 p.2

/-- Timeout handling of `_override_node_metadata`: sentinel leaves the preset
value, `None` clears to the zero duration, an int is seconds, a timedelta is
stored as-is, anything else is a ValueError. -/
def stepTimeout (m : NodeMeta) : TimeoutArg → Except (PyErr × NodeMeta) NodeMeta
  | .sentinel => .ok m
  | .clear => .ok { m with timeout := Duration.zero }
  | .secs k => .ok { m with timeout := Duration.ofSeconds k }
  | .dur d => .ok { m with timeout := d }
  | .other => .error (.valueErr, m)

/-- Retries: promise guard, then a fixed retry strategy. -/
def stepRetries (m : NodeMeta) : PV Int → Except (PyErr × NodeMeta) NodeMeta
  | PV.none => .ok m
  | PV.prom => .error (.assertionErr, m)
  | PV.some k => .ok { m with retries := some k }

/-- Interruptible: promise guard, then replacement. -/
def stepInterruptible (m : NodeMeta) : PV Bool → Except (PyErr × NodeMeta) NodeMeta
  | PV.none => .ok m
  | PV.prom => .error (.assertionErr, m)
  | PV.some b => .ok { m with interruptible := some b }

/-- Display-name replacement (the source runs no promise guard here). -/
def stepName (m : NodeMeta) : Option String → NodeMeta
  | Option.none => m
  | some s => { m with name := s }

/-- `cache_version` write: only a non-`None` value is written, promise
guarded. -/
def writeCacheVer (m : NodeMeta) : PV String → Except (PyErr × NodeMeta) NodeMeta
  | PV.none => .ok m
  | PV.prom => .error (.assertionErr, m)
  | PV.some v => .ok { m with cacheVersion := some v }

/-- `cache_serialize` write: only a non-`None` value is written, promise
guarded. -/
def writeCacheSer (m : NodeMeta) : PV Bool → Except (PyErr × NodeMeta) NodeMeta
  | PV.none => .ok m
  | PV.prom => .error (.assertionErr, m)
  | PV.some b => .ok { m with cacheSerializable := some b }

/-- The cache block of `_override_node_metadata`: promise guard on `cache`;
a bare `True` with no `cache_version` is promoted to a default rich policy; a
rich policy conflicts with the deprecated discrete parameters (ValueError) and
requires a version (ValueError), and on success is flattened back into
`cacheable = True` plus the policy's version and serialize flag; finally the
`cacheable` field is assigned unconditionally (so an absent `cache` argument
writes `None` over any preset value), and the discrete parameters are written
only when non-`None`. A promise in the discrete parameters inside the
rich-policy conflict check raises the ValueError first, exactly like the
source, because a promise is "not None" there. -/
def cacheSection (m : NodeMeta) (cache : PV CacheArg) (cs : PV Bool)
    (cv : PV String) : Except (PyErr × NodeMeta) NodeMeta :=
  match cache with
  | PV.prom => .error (.assertionErr, m)
  | PV.none =>
    match writeCacheVer { m with cacheable := Option.none } cv with
    | .error e => .error e
    | .ok m2 => writeCacheSer m2 cs
  | PV.some ca =>
    let ca2 : CacheArg :=
      match ca, cv with
      | CacheArg.b true, PV.none =>
        CacheArg.rich ⟨Option.none, match cs with | PV.some b => b | _ => false⟩
      | _, _ => ca
    match ca2 with
    | CacheArg.rich c =>
      match cs, cv with
      | PV.none, PV.none =>
        match c.version with
        | Option.none => .error (.valueErr, m)
        | some v =>
          match writeCacheVer { m with cacheable := some true } (PV.some v) with
          | .error e => .error e
          | .ok m2 => writeCacheSer m2 (PV.some c.serialize)
      | _, _ => .error (.valueErr, m)
    | CacheArg.b b =>
      match writeCacheVer { m with cacheable := some b } cv with
      | .error e => .error e
      | .ok m2 => writeCacheSer m2 cs

/-- `Node._override_node_metadata` on the metadata object picked by the
map-task dispatch, with the in-place mutation made explicit: an error carries
the partially-updated metadata, exactly as the Python exception leaves the
aliased object. -/
def overrideNodeMetadata (m : NodeMeta) (name : Option String) (timeout : TimeoutArg)
    (retries : PV Int) (interruptible : PV Bool) (cache : PV CacheArg)
    (cs : PV Bool) (cv : PV String) : Except (PyErr × NodeMeta) NodeMeta :=
  match stepTimeout m timeout with
  | .error e => .error e
  | .ok m1 =>
    match stepRetries m1 retries with
    | .error e => .error e
    | .ok m2 =>
      match stepInterruptible m2 interruptible with
      | .error e => .error e
      | .ok m3 => cacheSection (stepName m3 name) cache cs cv

/-- The argument record of `with_overrides`; `Args.default` is a call with
every parameter left at its Python default. -/
structure Args : Type where
  nodeName : PV String
  aliases : Option (List (String × String))
  requests : Option ResourcesR
  limits : Option ResourcesR
  timeout : TimeoutArg
  retries : PV Int
  interruptible : PV Bool
  name : Option String
  taskConfig : Option (Nat × Nat)
  containerImage : PV String
  accelerator : PV String
  cache : PV CacheArg
  sharedMemory : PV String
  podTemplate : PV String
  resources : Option ResourcesR
  cacheSerialize : PV Bool
  cacheVersion : PV String
  deriving DecidableEq, Repr

/-- A `with_overrides()` call with no arguments. -/
def Args.default : Args :=
  { nodeName := PV.none, aliases := Option.none, requests := Option.none,
    limits := Option.none, timeout := TimeoutArg.sentinel, retries := PV.none,
    interruptible := PV.none, name := Option.none, taskConfig := Option.none,
    containerImage := PV.none, accelerator := PV.none, cache := PV.none,
    sharedMemory := PV.none, podTemplate := PV.none, resources := Option.none,
    cacheSerialize := PV.none, cacheVersion := PV.none }

/-- The value of a non-promise `PV` (promises never reach this point on the
paths where it is used, each being behind an `assert_not_promise`). -/
def PV.toOption {α : Type} : PV α → Option α
  | PV.none => Option.none
  | PV.some a => Option.some a
  | PV.prom => Option.none

/-- `Node.with_overrides`, with the in-place mutation made explicit: an error
carries the node exactly as the raised Python exception leaves it (earlier
writes retained). Step order mirrors the source: node name, aliases, the
resources/requests/limits mutual exclusion and conversion, task config,
container image, the accelerator and shared-memory promise guards, the
unconditional extended-resources construction, `_override_node_metadata`, pod
template. -/
def withOverrides (n0 : Node) (a : Args) : Except (PyErr × Node) Node :=
  match (match a.nodeName with
         | PV.none => .ok n0
         | PV.prom => .error (.assertionErr, n0)
         | PV.some s => .ok { n0 with id := dnsify s } :
         Except (PyErr × Node) Node) with
  | .error e => .error e
  | .ok n1 =>
    let n2 : Node :=
      match a.aliases with
      | Option.none => n1
      | some l => { n1 with aliases := some l }
    match (match a.resources with
           | Option.none => .ok (a.requests, a.limits)
           | some r =>
             match a.limits, a.requests with
             | Option.none, Option.none => .ok (fromMultipleResource r)
             | _, _ => .error (.valueErr, n2) :
           Except (PyErr × Node) (Option ResourcesR × Option ResourcesR)) with
    | .error e => .error e
    | .ok (req, lim) =>
      match (match req, lim with
             | Option.none, Option.none => .ok n2
             | _, _ =>
               let rm := convertResourcesToResourceModel req lim
               match assertNoPromisesInResources rm with
               | some e => .error (e, n2)
               | Option.none => .ok { n2 with resources := some rm } :
             Except (PyErr × Node) Node) with
      | .error e => .error e
      | .ok n3 =>
        match (match a.taskConfig with
               | Option.none => .ok n3
               | some (tag, v) =>
                 if tag = n3.taskCfgTag then .ok { n3 with taskCfgVal := v }
                 else .error (.valueErr, n3) :
               Except (PyErr × Node) Node) with
        | .error e => .error e
        | .ok n4 =>
          match (match a.containerImage with
                 | PV.none => .ok n4
                 | PV.prom => .error (.assertionErr, n4)
                 | PV.some s => .ok { n4 with containerImage := some s } :
                 Except (PyErr × Node) Node) with
          | .error e => .error e
          | .ok n5 =>
            match (match a.accelerator with
                   | PV.prom => .error (.assertionErr, n5)
                   | _ => .ok n5 :
                   Except (PyErr × Node) Node) with
            | .error e => .error e
            | .ok n6 =>
              match (match a.sharedMemory with
                     | PV.prom => .error (.assertionErr, n6)
                     | _ => .ok n6 :
                     Except (PyErr × Node) Node) with
              | .error e => .error e
              | .ok n7 =>
                let er : Option (Option String × Option String) :=
                  some (a.accelerator.toOption, a.sharedMemory.toOption)
                let n8 : Node := { n7 with extendedResources := er }
                match overrideNodeMetadata (targetMeta n8) a.name a.timeout
                    a.retries a.interruptible a.cache a.cacheSerialize a.cacheVersion with
                | .error em => .error (em.1, setTargetMeta n8 em.2)
                | .ok m2 =>
                  let n9 := setTargetMeta n8 m2
                  match a.podTemplate with
                  | PV.none => .ok n9
                  | PV.prom => .error (.assertionErr, n9)
                  | PV.some p => .ok { n9 with podTemplate := some p }

lemma targetMeta_setTargetMeta (n : Node) (m : NodeMeta) :
    targetMeta (setTargetMeta n m) = m := by
  unfold targetMeta setTargetMeta
  by_cases h : n.isMapTask <;> simp [h]

lemma setTargetMeta_resources (n : Node) (m : NodeMeta) :
    (setTargetMeta n m).resources = n.resources := by
  unfold setTargetMeta
  by_cases h : n.isMapTask <;> simp [h]

lemma setTargetMeta_podTemplate (n : Node) (m : NodeMeta) :
    (setTargetMeta n m).podTemplate = n.podTemplate := by
  unfold setTargetMeta
  by_cases h : n.isMapTask <;> simp [h]

lemma fspathN_downloaded (n : Nat) (f : FlyteFile) (h : f.downloaded = true) :
    fspathN n f = ⟨f, List.replicate n f.localPath, 0, []⟩ := by
  induction n with
  | zero => simp [fspathN]
  | succ k ih => simp [fspathN, FlyteFile.fspath, h, ih, List.replicate]

lemma fspathN_runs_le (m : Nat) (g : FlyteFile) : (fspathN m g).runs ≤ 1 := by
  cases m with
  | zero => simp [fspathN]
  | succ k =>
    cases hg : g.downloaded with
    | true => simp [fspathN_downloaded (k + 1) g hg]
    | false =>
      have h1 : g.fspath = ({ g with downloaded := true }, g.localPath, 1, g.downloader.run) := by
        simp [FlyteFile.fspath, hg]
      have h2 := fspathN_downloaded k { g with downloaded := true } rfl
      simp [fspathN, h1, h2]

/-- C1: a FlyteFile constructed from a remote URI performs no download I/O at
construction time and starts undownloaded; any positive number of
`__fspath__` / `download()` calls invokes the downloader exactly once in
total, performs exactly the single `get_data(remote, scratch)` transfer, sets
the `downloaded` flag, and returns the cached scratch path every time; and on
any FlyteFile instance whatsoever the downloader runs at most once over any
sequence of accesses. -/
theorem c1_lazy_materializer_once (ctx : Ctx) (e p : String) (dl : Downloader)
    (rp : RP) (md : Option SMap) (h : ctx.isRemote p = true) :
    (FlyteFile.init ctx e p dl rp md).2 = [] ∧
    (FlyteFile.init ctx e p dl rp md).1.downloaded = false ∧
    (∀ n, 1 ≤ n →
      (fspathN n (FlyteFile.init ctx e p dl rp md).1).runs = 1 ∧
      (fspathN n (FlyteFile.init ctx e p dl rp md).1).events =
        [IOEvent.get p (ctx.randomLocalPath p)] ∧
      (fspathN n (FlyteFile.init ctx e p dl rp md).1).file.downloaded = true ∧
      (fspathN n (FlyteFile.init ctx e p dl rp md).1).paths =
        List.replicate n (ctx.randomLocalPath p)) ∧
    (∀ g : FlyteFile, ∀ m : Nat, (fspathN m g).runs ≤ 1) := by
  refine ⟨by simp [FlyteFile.init, h], by simp [FlyteFile.init, h], ?_, fun g m => fspathN_runs_le m g⟩
  intro n hn
  cases n with
  | zero => omega
  | succ k =>
    have hf : (FlyteFile.init ctx e p dl rp md).1 =
        { ext := e, path := p, metadata := md,
          downloader := .fetch p (ctx.randomLocalPath p), downloaded := false,
          remotePath := rp, remoteSource := some p,
          localPath := ctx.randomLocalPath p } := by
      simp [FlyteFile.init, h]
    rw [hf]
    have h2 := fspathN_downloaded k
      { ext := e, path := p, metadata := md,
        downloader := Downloader.fetch p (ctx.randomLocalPath p), downloaded := true,
        remotePath := rp, remoteSource := some p,
        localPath := ctx.randomLocalPath p } rfl
    simp [fspathN, FlyteFile.fspath, Downloader.run, h2, List.replicate]

/-- A concrete context: `s3://` URIs are remote, the scratch allocator yields
`/tmp/dl`, libmagic is unavailable, execution is non-local. -/
def ctx0 : Ctx :=
  { isRemote := fun s => leadsChars ("s3://".data) s.data,
    randomLocalPath := fun _ => "/tmp/dl",
    isFile := fun _ => true,
    isLocalExecution := false,
    magicAvailable := false,
    sniff := fun _ => "",
    mimetypesTypesMap := [],
    putDataRes := fun _ _ => "s3://dest/out",
    putRawRes := fun _ => "s3://raw/out" }

/-- C1 witness: the laziness theorem applied at a concrete remote file and
two accesses. -/
theorem c1_lazy_materializer_once_witness :
    ctx0.isRemote "s3://b/f" = true ∧
    (fspathN 2 (FlyteFile.init ctx0 "" "s3://b/f" Downloader.noop RP.none Option.none).1).runs = 1 ∧
    (fspathN 2 (FlyteFile.init ctx0 "" "s3://b/f" Downloader.noop RP.none Option.none).1).events =
      [IOEvent.get "s3://b/f" "/tmp/dl"] := by
  have h := c1_lazy_materializer_once ctx0 "" "s3://b/f" Downloader.noop RP.none Option.none (by decide)
  exact ⟨by decide, (h.2.2.1 2 (by norm_num)).1, (h.2.2.1 2 (by norm_num)).2.1⟩

lemma runsBeforeN_mem (m : Nat) (a b : Node) (h : a.ref ∈ b.upstream) :
    runsBeforeN m a b = (a, b) := by
  induction m with
  | zero => simp [runsBeforeN]
  | succ k ih => simp [runsBeforeN, runsBefore, h, ih]

/-- C9: `runs_before` appends the left node to the right node's upstream list
only when absent, so any positive number of repetitions of
`a.runs_before(b)` / `a >> b` leaves `b.upstream` equal to the original list
with `a` appended once (hence containing `a` exactly once when it was fresh),
changes no other field of `b`, and never mutates `a`. -/
theorem c9_runs_before_idempotent (a b : Node) (n : Nat)
    (hfresh : a.ref ∉ b.upstream) (hn : 1 ≤ n) :
    (runsBeforeN n a b).1 = a ∧
    (runsBeforeN n a b).2 = { b with upstream := b.upstream ++ [a.ref] } ∧
    ((runsBeforeN n a b).2.upstream.count a.ref = 1) := by
  cases n with
  | zero => omega
  | succ k =>
    have h1 : runsBefore a b = (a, { b with upstream := b.upstream ++ [a.ref] }) := by
      simp [runsBefore, hfresh]
    have hmem : a.ref ∈ ({ b with upstream := b.upstream ++ [a.ref] } : Node).upstream := by
      simp
    have h2 := runsBeforeN_mem k a _ hmem
    refine ⟨by simp [runsBeforeN, h1, h2], by simp [runsBeforeN, h1, h2], ?_⟩
    simp [runsBeforeN, h1, h2, List.count_append]
    simp [List.count_eq_zero.mpr hfresh]

/-- An empty node metadata record used for concrete nodes. -/
def nodeMeta0 : NodeMeta :=
  { name := "n", timeout := ⟨0⟩, retries := Option.none,
    interruptible := Option.none, cacheable := Option.none,
    cacheVersion := Option.none, cacheSerializable := Option.none }

/-- A concrete plain (non-map-task) node with a given identity. -/
def mkNode (r : Nat) : Node :=
  { ref := r, id := "n", isMapTask := false, metadata := nodeMeta0,
    subNodeMetadata := nodeMeta0, upstream := [], aliases := Option.none,
    resources := Option.none, extendedResources := Option.none,
    containerImage := Option.none, podTemplate := Option.none,
    taskCfgTag := 0, taskCfgVal := 0 }

/-- C9 witness: two repetitions on concrete nodes leave exactly one edge and
the left node untouched. -/
theorem c9_runs_before_idempotent_witness :
    (runsBeforeN 2 (mkNode 1) (mkNode 2)).1 = mkNode 1 ∧
    ((runsBeforeN 2 (mkNode 1) (mkNode 2)).2.upstream.count (mkNode 1).ref = 1) := by
  have h := c9_runs_before_idempotent (mkNode 1) (mkNode 2) 2 (by decide) (by norm_num)
  exact ⟨h.1, h.2.2⟩

/-- C5: the file transformer's reverse lookup succeeds exactly on blob/SINGLE
literal types whose format differs from the reserved pickle sentinel, in which
case it returns the file subtype parameterized (via `__class_getitem__`) by
the format; the pickle transformer's reverse lookup succeeds exactly on
blob/SINGLE types whose format equals the sentinel; consequently no literal
type is claimed by both; every failure is the raised error (a Python
ValueError, which the spec's taxonomy files under its lookup-error kind). -/
theorem c5_guess_python_type_partition (lt : LiteralTypeM) :
    (isOkE (guessPythonTypeFile lt) = fileClaims lt) ∧
    (isOkE (guessPythonTypePickle lt) = pickleClaims lt) ∧
    (¬(fileClaims lt = true ∧ pickleClaims lt = true)) ∧
    (∀ b, lt.blob = some b → b.dim = BlobDim.single → b.format ≠ pythonPickleFormat →
      guessPythonTypeFile lt = .ok (FlyteFile.classGetItem b.format)) ∧
    (isOkE (guessPythonTypeFile lt) = false → guessPythonTypeFile lt = .error .valueErr) ∧
    (∀ b, lt.blob = some b → b.dim = BlobDim.single → b.format = pythonPickleFormat →
      guessPythonTypePickle lt = .ok ()) ∧
    (isOkE (guessPythonTypePickle lt) = false → guessPythonTypePickle lt = .error .valueErr) := by
  obtain ⟨ob⟩ := lt
  rcases ob with _ | ⟨fmt, dim⟩
  · simp [guessPythonTypeFile, guessPythonTypePickle, fileClaims, pickleClaims, isOkE]
  · cases dim <;> by_cases hf : fmt = pythonPickleFormat <;>
      simp_all [guessPythonTypeFile, guessPythonTypePickle, fileClaims, pickleClaims, isOkE]

/-- C5 witness: the partition theorem applied at concrete literal types. -/
theorem c5_guess_python_type_partition_witness :
    guessPythonTypeFile ⟨some ⟨"csv", BlobDim.single⟩⟩ = .ok (PyType.flyteFile "csv") ∧
    guessPythonTypePickle ⟨some ⟨"PythonPickle", BlobDim.single⟩⟩ = .ok () ∧
    guessPythonTypeFile ⟨some ⟨"PythonPickle", BlobDim.single⟩⟩ = .error .valueErr := by
  have h1 := c5_guess_python_type_partition ⟨some ⟨"csv", BlobDim.single⟩⟩
  have h2 := c5_guess_python_type_partition ⟨some ⟨"PythonPickle", BlobDim.single⟩⟩
  refine ⟨?_, ?_, ?_⟩
  · have hd := h1.2.2.2.1 ⟨"csv", BlobDim.single⟩ rfl rfl (by decide)
    exact hd.trans (by decide)
  · exact h2.2.2.2.2.2.1 ⟨"PythonPickle", BlobDim.single⟩ rfl rfl rfl
  · exact h2.2.2.2.2.1 (by rw [h2.1]; decide)

/-- A context with libmagic available: csv maps to text/csv in the
environment mime table, while the sniffer reports application/octet-stream
for every local file. -/
def ctx1 : Ctx :=
  { isRemote := fun s => leadsChars ("s3://".data) s.data,
    randomLocalPath := fun _ => "/tmp/dl",
    isFile := fun _ => true,
    isLocalExecution := false,
    magicAvailable := true,
    sniff := fun _ => "application/octet-stream",
    mimetypesTypesMap := [("csv", "text/csv")],
    putDataRes := fun _ _ => "s3://dest/out",
    putRawRes := fun _ => "s3://raw/out" }

/-- A SINGLE csv blob literal with a remote uri. -/
def litCsv : LiteralM := ⟨some (.blob ⟨⟨"csv", .single⟩, "s3://b/x.csv"⟩), Option.none⟩

/-- The FlyteFile produced by `async_to_python_value` on `litCsv` under
`ctx1`: local scratch path, pending downloader, `remote_source` recorded. -/
def ffCsv : FlyteFile :=
  { ext := "csv", path := "/tmp/dl", metadata := Option.none,
    downloader := .fetch "s3://b/x.csv" "/tmp/dl", downloaded := false,
    remotePath := RP.none, remoteSource := some "s3://b/x.csv",
    localPath := "/tmp/dl" }

/-- C2 counterexample: a FlyteFile that was produced by downloading a remote
csv literal (so `remote_source` is set) is nevertheless content-type
validated by `to_literal` — validation runs on the value's local path before
the remote-source check — and with libmagic reporting a non-csv mime type the
call raises ValueError instead of re-emitting the Blob verbatim. -/
theorem c2_remote_source_counterexample :
    asyncToPythonValue ctx1 litCsv (PyType.flyteFile "csv") = .ok ffCsv ∧
    ffCsv.remoteSource = some "s3://b/x.csv" ∧
    (asyncToLiteral ctx1 (PyVal.file ffCsv) (PyType.flyteFile "csv")).1 = .error PyErr.valueErr := by
  refine ⟨by decide, rfl, by decide⟩

/-- C2 amended: for every FlyteFile whose `remote_source` is set, `to_literal`
performs no storage I/O at all (in particular no upload), and — provided the
content-type validation that it first runs on the value's path passes — it
re-emits a Blob literal whose uri is the original remote uri verbatim with the
value's metadata passed through unchanged. -/
theorem c2_remote_source_passthrough (ctx : Ctx) (f : FlyteFile) (pt : PyType)
    (s : String) (h : f.remoteSource = some s) :
    (asyncToLiteral ctx (PyVal.file f) pt).2 = [] ∧
    (validateFileType ctx pt f.path = .ok () →
      (asyncToLiteral ctx (PyVal.file f) pt).1 =
        .ok ⟨some (.blob ⟨⟨getFormat pt, .single⟩, s⟩), f.metadata⟩) := by
  constructor
  · cases hv : validateFileType ctx pt f.path with
    | error e => simp [asyncToLiteral, hv]
    | ok u => simp [asyncToLiteral, hv, h]
  · intro hok
    simp [asyncToLiteral, hok, h]

/-- C2 amended witness: the passthrough theorem at a concrete remote-sourced
file (libmagic unavailable, so validation passes). -/
theorem c2_remote_source_passthrough_witness :
    (asyncToLiteral ctx0
        (PyVal.file (FlyteFile.init ctx0 "" "s3://b/f" Downloader.noop RP.none Option.none).1)
        (PyType.flyteFile "csv")).1 =
      .ok ⟨some (.blob ⟨⟨"csv", .single⟩, "s3://b/f"⟩), Option.none⟩ ∧
    (asyncToLiteral ctx0
        (PyVal.file (FlyteFile.init ctx0 "" "s3://b/f" Downloader.noop RP.none Option.none).1)
        (PyType.flyteFile "csv")).2 = [] := by
  have h := c2_remote_source_passthrough ctx0
    (FlyteFile.init ctx0 "" "s3://b/f" Downloader.noop RP.none Option.none).1
    (PyType.flyteFile "csv") "s3://b/f" (by decide)
  exact ⟨h.2 (by decide), h.1⟩

/-- C3: for every well-formed FlyteFile whose `remote_path` is explicitly
`False` or whose source path is already remote, `to_literal` performs no
storage `put` (no I/O at all), and whenever it returns a literal the blob uri
is the source path as-is with the value's metadata attached. -/
theorem c3_no_upload_invariant (ctx : Ctx) (f : FlyteFile) (pt : PyType)
    (hwf : FFWellFormed ctx f)
    (h : f.remotePath = RP.bool false ∨ ctx.isRemote f.path = true) :
    (asyncToLiteral ctx (PyVal.file f) pt).2 = [] ∧
    (∀ lit, (asyncToLiteral ctx (PyVal.file f) pt).1 = .ok lit →
      lit = ⟨some (.blob ⟨⟨getFormat pt, .single⟩, f.path⟩), f.metadata⟩) := by
  cases hv : validateFileType ctx pt f.path with
  | error e =>
    constructor
    · simp [asyncToLiteral, hv]
    · intro lit hlit
      simp [asyncToLiteral, hv] at hlit
  | ok u =>
    cases hrs : f.remoteSource with
    | some s =>
      rcases hwf s hrs with hps | ⟨hrp, hnr⟩
      · subst hps
        constructor
        · simp [asyncToLiteral, hv, hrs]
        · intro lit hlit
          simp [asyncToLiteral, hv, hrs] at hlit
          exact hlit.symm
      · exfalso
        rcases h with h1 | h2
        · rw [hrp] at h1
          exact RP.noConfusion h1
        · rw [hnr] at h2
          exact Bool.noConfusion h2
    | none =>
      have hsu : (if f.remotePath = RP.bool false ∨ ctx.isRemote f.path = true
          then false else true) = false := if_pos h
      constructor
      · simp [asyncToLiteral, hv, hrs, hsu, toLiteralFinish]
      · intro lit hlit
        simp [asyncToLiteral, hv, hrs, hsu, toLiteralFinish] at hlit
        exact hlit.symm

/-- C3 witness: the no-upload theorem at a concrete local file with
`remote_path=False` under a non-local execution context (the case that would
otherwise upload). -/
theorem c3_no_upload_invariant_witness :
    (asyncToLiteral ctx0
        (PyVal.file (FlyteFile.init ctx0 "" "/tmp/data.bin" Downloader.noop (RP.bool false) Option.none).1)
        (PyType.flyteFile "")).2 = [] ∧
    (asyncToLiteral ctx0
        (PyVal.file (FlyteFile.init ctx0 "" "/tmp/data.bin" Downloader.noop (RP.bool false) Option.none).1)
        (PyType.flyteFile "")).1 =
      .ok ⟨some (.blob ⟨⟨"", .single⟩, "/tmp/data.bin"⟩), Option.none⟩ := by
  have h := c3_no_upload_invariant ctx0
    (FlyteFile.init ctx0 "" "/tmp/data.bin" Downloader.noop (RP.bool false) Option.none).1
    (PyType.flyteFile "")
    (by
      intro s hs
      have hn : (FlyteFile.init ctx0 "" "/tmp/data.bin" Downloader.noop
          (RP.bool false) Option.none).1.remoteSource = Option.none := by decide
      rw [hn] at hs
      exact Option.noConfusion hs)
    (Or.inl (by decide))
  exact ⟨h.1, by decide⟩

/-- A SINGLE untyped blob literal with a remote uri. -/
def litS3 : LiteralM := ⟨some (.blob ⟨⟨"", .single⟩, "s3://b/f"⟩), Option.none⟩

/-- The value `async_to_python_value` returns for `litS3` under `ctx0` with
expected type `os.PathLike`. -/
def ffS3 : FlyteFile :=
  { ext := "", path := "s3://b/f", metadata := Option.none,
    downloader := .fetch "s3://b/f" "/tmp/dl", downloaded := false,
    remotePath := RP.none, remoteSource := some "s3://b/f",
    localPath := "/tmp/dl" }

/-- C4 counterexample: converting a remote SINGLE blob with expected type
`os.PathLike` yields a FlyteFile whose downloader is NOT the noop — the
constructor attached a real lazy downloader — and whose managed download
performs the fetch instead of raising. -/
theorem c4_pathlike_counterexample :
    asyncToPythonValue ctx0 litS3 PyType.pathLike = .ok ffS3 ∧
    ffS3.downloader ≠ Downloader.noop ∧
    ffS3.fspath.2.2.2 = [IOEvent.get "s3://b/f" "/tmp/dl"] := by
  refine ⟨by decide, by decide, by decide⟩

/-- C4 amended: for a well-formed SINGLE blob literal and expected type
`os.PathLike`, `to_python_value` returns exactly the bare
`FlyteFile(path=uri, metadata=…)` built by the plain constructor — the
transformer itself attaches no subtype format and no remote source. When the
uri is local that value's downloader is the noop; when the uri is remote the
constructor itself attaches a lazy downloader bound to a scratch path and
records `remote_source`, so a managed download fetches rather than raising. -/
theorem c4_pathlike_bare_file (ctx : Ctx) (lv : LiteralM) (b : BlobM)
    (hb : lv.scalar = some (.blob b)) (hdim : b.btype.dim = BlobDim.single)
    (hex : ctx.isRemote b.uri = true ∨ ctx.isFile b.uri = true) :
    asyncToPythonValue ctx lv PyType.pathLike =
      .ok (FlyteFile.init ctx "" b.uri Downloader.noop RP.none lv.metadata).1 ∧
    (ctx.isRemote b.uri = false →
      (FlyteFile.init ctx "" b.uri Downloader.noop RP.none lv.metadata).1.downloader =
        Downloader.noop) ∧
    (ctx.isRemote b.uri = true →
      (FlyteFile.init ctx "" b.uri Downloader.noop RP.none lv.metadata).1.downloader =
        Downloader.fetch b.uri (ctx.randomLocalPath b.uri) ∧
      (FlyteFile.init ctx "" b.uri Downloader.noop RP.none lv.metadata).1.remoteSource =
        some b.uri) := by
  refine ⟨?_, ?_, ?_⟩
  · have hnex : ¬(ctx.isRemote b.uri = false ∧ ctx.isFile b.uri = false) := by
      rcases hex with h1 | h1 <;> simp [h1]
    simp [asyncToPythonValue, toPythonValueBlob, hb, hdim, hnex]
  · intro hl
    simp [FlyteFile.init, hl]
  · intro hr
    simp [FlyteFile.init, hr]

/-- C4 amended witness: the theorem at the concrete remote blob. -/
theorem c4_pathlike_bare_file_witness :
    asyncToPythonValue ctx0 litS3 PyType.pathLike =
      .ok (FlyteFile.init ctx0 "" "s3://b/f" Downloader.noop RP.none Option.none).1 ∧
    (FlyteFile.init ctx0 "" "s3://b/f" Downloader.noop RP.none Option.none).1.remoteSource =
      some "s3://b/f" := by
  have h := c4_pathlike_bare_file ctx0 litS3 ⟨⟨"", BlobDim.single⟩, "s3://b/f"⟩ rfl rfl
    (Or.inl (by decide))
  exact ⟨h.1, (h.2.2 (by decide)).2⟩

lemma ffWellFormed_init (ctx : Ctx) (e p : String) (dl : Downloader) (rp : RP)
    (md : Option SMap) : FFWellFormed ctx (FlyteFile.init ctx e p dl rp md).1 := by
  intro s hs
  cases hr : ctx.isRemote p with
  | false => simp [FlyteFile.init, hr] at hs
  | true =>
    left
    simp [FlyteFile.init, hr] at hs ⊢
    exact hs

lemma ffWellFormed_toPythonValueBlob (ctx : Ctx) (lv : LiteralM) (pt : PyType)
    (f : FlyteFile) (hsc : ∀ u, ctx.isRemote (ctx.randomLocalPath u) = false)
    (h : toPythonValueBlob ctx lv pt = .ok f) : FFWellFormed ctx f := by
  unfold toPythonValueBlob at h
  cases hlv : lv.scalar with
  | none => rw [hlv] at h; exact Except.noConfusion h
  | some sc =>
    rw [hlv] at h
    rcases sc with b | ⟨tag, d⟩ | d
    · by_cases h1 : b.btype.dim ≠ BlobDim.single
      · simp [h1] at h
      · by_cases h2 : ctx.isRemote b.uri = false ∧ ctx.isFile b.uri = false
        · simp [h1, h2] at h
        · by_cases h3 : pt = PyType.pathLike
          · simp [h1, h2, h3] at h
            rw [← h]
            exact ffWellFormed_init ctx _ _ _ _ _
          · by_cases h4 : ctx.isRemote b.uri = false
            · have h5 : ¬(ctx.isFile b.uri = false) := fun hf => h2 ⟨h4, hf⟩
              simp [h1, h2, h3, h4, h5] at h
              rw [← h]
              exact ffWellFormed_init ctx _ _ _ _ _
            · simp [h1, h2, h3, h4] at h
              rw [← h]
              intro s hs
              right
              have hlocal := hsc b.uri
              constructor
              · simp [FlyteFile.init, hlocal]
              · simp [FlyteFile.init, hlocal]
    · exact Except.noConfusion h
    · exact Except.noConfusion h

lemma ffWellFormed_dict (ctx : Ctx) (d : FFDict) (pt : PyType) (f : FlyteFile)
    (hsc : ∀ u, ctx.isRemote (ctx.randomLocalPath u) = false)
    (h : dictToFlyteFile ctx d pt = .ok f) : FFWellFormed ctx f := by
  unfold dictToFlyteFile at h
  cases hp : d.path with
  | none => rw [hp] at h; exact Except.noConfusion h
  | some p =>
    rw [hp] at h
    exact ffWellFormed_toPythonValueBlob ctx _ pt f hsc h

lemma ffWellFormed_toPythonValue (ctx : Ctx) (lv : LiteralM) (pt : PyType)
    (f : FlyteFile) (hsc : ∀ u, ctx.isRemote (ctx.randomLocalPath u) = false)
    (h : asyncToPythonValue ctx lv pt = .ok f) : FFWellFormed ctx f := by
  obtain ⟨osc, md⟩ := lv
  rcases osc with _ | sc
  · exact ffWellFormed_toPythonValueBlob ctx ⟨Option.none, md⟩ pt f hsc h
  · rcases sc with b | ⟨tag, d⟩ | d
    · exact ffWellFormed_toPythonValueBlob ctx ⟨some (.blob b), md⟩ pt f hsc h
    · by_cases ht : tag = "msgpack"
      · subst ht
        exact ffWellFormed_dict ctx d pt f hsc h
      · exfalso
        have herr : asyncToPythonValue ctx ⟨some (.binary tag d), md⟩ pt =
            .error .typeTransformerFailedErr := by
          simp [asyncToPythonValue, ht]
        rw [herr] at h
        exact Except.noConfusion h
    · exact ffWellFormed_dict ctx d pt f hsc h

lemma targetMeta_extRes (n : Node) (e : Option (Option String × Option String)) :
    targetMeta { n with extendedResources := e } = targetMeta n := rfl

/-- C8: the timeout override of `with_overrides` — the unset sentinel leaves
the preset timeout metadata unchanged, an explicit clear stores the zero
duration, an integer k stores a duration of k seconds (so 10 gives
10 seconds), a duration value is stored as-is, and any other shape raises a
ValueError. -/
theorem c8_timeout_override (n : Node) (k : Int) (d : Duration) :
    (∃ n1, withOverrides n Args.default = .ok n1 ∧
      (targetMeta n1).timeout = (targetMeta n).timeout) ∧
    (∃ n2, withOverrides n { Args.default with timeout := TimeoutArg.clear } = .ok n2 ∧
      (targetMeta n2).timeout = Duration.zero) ∧
    (∃ n3, withOverrides n { Args.default with timeout := TimeoutArg.secs k } = .ok n3 ∧
      (targetMeta n3).timeout = Duration.ofSeconds k) ∧
    (∃ n4, withOverrides n { Args.default with timeout := TimeoutArg.dur d } = .ok n4 ∧
      (targetMeta n4).timeout = d) ∧
    (∃ n5, withOverrides n { Args.default with timeout := TimeoutArg.other } =
      .error (.valueErr, n5)) ∧
    Duration.ofSeconds 10 = ⟨10 * 1000000⟩ := by
  refine ⟨⟨_, rfl, ?_⟩, ⟨_, rfl, ?_⟩, ⟨_, rfl, ?_⟩, ⟨_, rfl, ?_⟩, ⟨_, rfl⟩, rfl⟩
  all_goals simp [Args.default, stepName, targetMeta_setTargetMeta, targetMeta_extRes]

/-- C10: every `with_overrides` call that reaches the metadata section assigns
the `cache` argument to the target metadata's `cacheable` field outside the
`cache is not None` guard: a call without a cache argument overwrites any
preset cacheable value with `None`, while `cache_version` and
`cache_serializable` are written only when their arguments are non-`None`. -/
theorem c10_cacheable_frame_effect (n : Node) (v : String) (b : Bool) :
    (∃ n1, withOverrides n Args.default = .ok n1 ∧
      (targetMeta n1).cacheable = Option.none ∧
      (targetMeta n1).cacheVersion = (targetMeta n).cacheVersion ∧
      (targetMeta n1).cacheSerializable = (targetMeta n).cacheSerializable) ∧
    (∃ n2, withOverrides n { Args.default with cacheVersion := PV.some v } = .ok n2 ∧
      (targetMeta n2).cacheable = Option.none ∧
      (targetMeta n2).cacheVersion = some v ∧
      (targetMeta n2).cacheSerializable = (targetMeta n).cacheSerializable) ∧
    (∃ n3, withOverrides n { Args.default with cacheSerialize := PV.some b } = .ok n3 ∧
      (targetMeta n3).cacheable = Option.none ∧
      (targetMeta n3).cacheVersion = (targetMeta n).cacheVersion ∧
      (targetMeta n3).cacheSerializable = some b) := by
  refine ⟨⟨_, rfl, ?_, ?_, ?_⟩, ⟨_, rfl, ?_, ?_, ?_⟩, ⟨_, rfl, ?_, ?_, ?_⟩⟩
  all_goals simp [Args.default, stepName, targetMeta_setTargetMeta, targetMeta_extRes]

/-- C6: supplying both `resources` and `requests` (or `limits`) raises a
ValueError leaving the node entirely unchanged; supplying both a rich cache
policy and the legacy `cache_version` (or `cache_serialize`) raises a
ValueError leaving the stored resources and all cache metadata unchanged. -/
theorem c6_override_mutual_exclusion (n : Node) (r q l : ResourcesR)
    (c : CacheObj) (v : String) (b : Bool) :
    (withOverrides n { Args.default with resources := some r, requests := some q } =
      .error (.valueErr, n)) ∧
    (withOverrides n { Args.default with resources := some r, limits := some l } =
      .error (.valueErr, n)) ∧
    (∃ n1, withOverrides n
        { Args.default with cache := PV.some (.rich c), cacheVersion := PV.some v } =
      .error (.valueErr, n1) ∧ n1.resources = n.resources ∧
      (targetMeta n1).cacheable = (targetMeta n).cacheable ∧
      (targetMeta n1).cacheVersion = (targetMeta n).cacheVersion ∧
      (targetMeta n1).cacheSerializable = (targetMeta n).cacheSerializable) ∧
    (∃ n2, withOverrides n
        { Args.default with cache := PV.some (.rich c), cacheSerialize := PV.some b } =
      .error (.valueErr, n2) ∧ n2.resources = n.resources ∧
      (targetMeta n2).cacheable = (targetMeta n).cacheable ∧
      (targetMeta n2).cacheVersion = (targetMeta n).cacheVersion ∧
      (targetMeta n2).cacheSerializable = (targetMeta n).cacheSerializable) := by
  refine ⟨rfl, rfl, ⟨_, rfl, ?_, ?_, ?_, ?_⟩, ⟨_, rfl, ?_, ?_, ?_, ?_⟩⟩
  all_goals simp [Args.default, stepName, targetMeta_setTargetMeta, targetMeta_extRes,
    setTargetMeta_resources]

/-- C7: a promise passed to any static override field — node name, container
image, accelerator, shared memory, a resource entry value, retries,
interruptible, cache, cache version, cache serialize, or pod template —
raises an AssertionError and leaves that field unmodified. -/
theorem c7_promise_guard (n : Node) :
    (withOverrides n { Args.default with nodeName := PV.prom } =
      .error (.assertionErr, n)) ∧
    (withOverrides n { Args.default with containerImage := PV.prom } =
      .error (.assertionErr, n)) ∧
    (withOverrides n { Args.default with accelerator := PV.prom } =
      .error (.assertionErr, n)) ∧
    (withOverrides n { Args.default with sharedMemory := PV.prom } =
      .error (.assertionErr, n)) ∧
    (withOverrides n { Args.default with
        requests := some ⟨some RVal.prom, Option.none, Option.none, Option.none⟩ } =
      .error (.assertionErr, n)) ∧
    (∃ n1, withOverrides n { Args.default with retries := PV.prom } =
      .error (.assertionErr, n1) ∧ (targetMeta n1).retries = (targetMeta n).retries) ∧
    (∃ n2, withOverrides n { Args.default with interruptible := PV.prom } =
      .error (.assertionErr, n2) ∧
      (targetMeta n2).interruptible = (targetMeta n).interruptible) ∧
    (∃ n3, withOverrides n { Args.default with cache := PV.prom } =
      .error (.assertionErr, n3) ∧ (targetMeta n3).cacheable = (targetMeta n).cacheable) ∧
    (∃ n4, withOverrides n { Args.default with cacheVersion := PV.prom } =
      .error (.assertionErr, n4) ∧
      (targetMeta n4).cacheVersion = (targetMeta n).cacheVersion) ∧
    (∃ n5, withOverrides n { Args.default with cacheSerialize := PV.prom } =
      .error (.assertionErr, n5) ∧
      (targetMeta n5).cacheSerializable = (targetMeta n).cacheSerializable) ∧
    (∃ n6, withOverrides n { Args.default with podTemplate := PV.prom } =
      .error (.assertionErr, n6) ∧ n6.podTemplate = n.podTemplate) := by
  refine ⟨rfl, rfl, rfl, rfl, rfl, ⟨_, rfl, ?_⟩, ⟨_, rfl, ?_⟩, ⟨_, rfl, ?_⟩,
    ⟨_, rfl, ?_⟩, ⟨_, rfl, ?_⟩, ⟨_, rfl, ?_⟩⟩
  all_goals simp [Args.default, stepName, targetMeta_setTargetMeta, targetMeta_extRes,
    setTargetMeta_podTemplate]
